import Mathlib

/-!
Shallow embedding of the Statement Dashboard (`src/app.py`).

The program loads a spreadsheet into a table of per-user financial
records, computes whole-table aggregates (sum, mean, distinct count,
top-N by a numeric column) and renders either an overview of those
aggregates or a drill-down view built from the first row matching a
selected `UserID`.  Numeric cell values are embedded as rationals
(`Rat`), so that sums and means are exact; the pandas stable top-N
selection (`DataFrame.nlargest`, `keep='first'`) is embedded as a
stable descending merge sort followed by `take n`.
-/

namespace FinanceDashboard

/-- One row of the uploaded table: a `Financial Record`
(`UserID` plus the fixed set of numeric columns used by `app.py`). -/
structure Row where
  UserID : String
  Revenue : Rat
  COGS : Rat
  GrossProfit : Rat
  NetProfit : Rat
  NetProfitMargin : Rat
  GrossProfitMargin : Rat
  OperatingExpenseRatio : Rat
  TotalAssets : Rat
  TotalLiabilities : Rat
  CashAndBankBalance : Rat
  AccountReceivables : Rat
  Inventory : Rat
  DepositsAdvancesPrepayments : Rat
  AccountPayables : Rat
  WagesPayable : Rat
  ProvisionsAccruals : Rat
  OtherPayables : Rat
deriving DecidableEq

/-- `df[col].sum()`: pandas reduces the column sequentially from 0. -/
def colSum (df : List Row) (f : Row → Rat) : Rat :=
  df.foldl (fun acc r => acc + f r) 0

/-- `df[col].mean()`: the column sum divided by the row count. -/
def colMean (df : List Row) (f : Row → Rat) : Rat :=
  colSum df f / (df.length : Rat)

/-- `df['Revenue'].sum()` (app.py line 40). -/
def total_revenue (df : List Row) : Rat := colSum df Row.Revenue

/-- `df['NetProfitMargin'].mean()` (app.py lines 41 and 120). -/
def avg_net_profit_margin (df : List Row) : Rat := colMean df Row.NetProfitMargin

/-- `df['TotalAssets'].sum()` (app.py line 42). -/
def total_assets (df : List Row) : Rat := colSum df Row.TotalAssets

/-- `df['UserID'].nunique()` (app.py line 43): the number of distinct
`UserID` values. -/
def total_users (df : List Row) : Nat :=
  ((df.map Row.UserID).dedup).length

/-- The descending comparison on a numeric column, used by
`nlargest`: row `a` may precede row `b` iff `f b ≤ f a`. -/
def byDesc (f : Row → Rat) (a b : Row) : Prop := f b ≤ f a

instance (f : Row → Rat) : DecidableRel (byDesc f) :=
  fun a b => inferInstanceAs (Decidable (f b ≤ f a))

instance (f : Row → Rat) : IsTotal Row (byDesc f) :=
  ⟨fun a b => le_total (f b) (f a)⟩

instance (f : Row → Rat) : IsTrans Row (byDesc f) :=
  ⟨fun _ _ _ hab hbc => le_trans hbc hab⟩

/-- `df.nlargest(n, col)` with the default `keep='first'`: the rows
sorted by the column in descending order with ties kept in original
table order (a stable sort), truncated to the first `n`. -/
def nlargest (df : List Row) (n : Nat) (f : Row → Rat) : List Row :=
  (df.insertionSort (byDesc f)).take n

/-- `df.nlargest(10, 'Revenue')` (app.py line 61). -/
def top_10_users (df : List Row) : List Row := nlargest df 10 Row.Revenue

/-- `df.nlargest(20, 'TotalAssets')` (app.py line 79). -/
def top_20_assets (df : List Row) : List Row := nlargest df 20 Row.TotalAssets

/-- `["Overview"] + sorted(df["UserID"].unique())` (app.py line 24):
the selectbox options, the sentinel first, then the distinct
`UserID` values in ascending order. -/
def user_list (df : List Row) : List String :=
  "Overview" :: ((df.map Row.UserID).dedup).insertionSort (· ≤ ·)

/-- `df[df["UserID"] == selected_user]` (app.py line 86): the rows whose
`UserID` equals the selection, in original table order. -/
def matching_rows (df : List Row) (sel : String) : List Row :=
  df.filter (fun r => decide (r.UserID = sel))

/-- `df[df["UserID"] == selected_user].iloc[0]` (app.py line 86):
the first matching row; `none` models the `IndexError` that `.iloc[0]`
raises on an empty selection. -/
def user_data (df : List Row) (sel : String) : Option Row :=
  (matching_rows df sel).head?

/-- What the main page renders: either the whole-table overview
(KPIs and top-N chart inputs, app.py lines 32-82) or the per-user
drill-down built from `user_data` together with the company-average
Net-Profit-Margin comparison (app.py lines 85-145). -/
inductive View where
  | overview (totalRevenue avgNPM totalAssets : Rat) (totalUsers : Nat)
      (top10 : List Row) (top20 : List Row)
  | drilldown (userData : Row) (avgNPM deltaVsAvg : Rat)
deriving DecidableEq

/-- The main-page branch (app.py lines 30-145): the sentinel
`"Overview"` selects the aggregate view; any other selection builds a
drill-down from the first matching row, whose Margin-Analysis tab shows
`avg_npm = df['NetProfitMargin'].mean()` and
`delta_vs_avg = user_data['NetProfitMargin'] - avg_npm`
(app.py lines 120-123).  `none` models the uncaught `IndexError` when
no row matches. -/
def render (df : List Row) (sel : String) : Option View :=
  if sel = "Overview" then
    some (.overview (total_revenue df) (avg_net_profit_margin df)
      (total_assets df) (total_users df) (top_10_users df) (top_20_assets df))
  else
    match user_data df sel with
    | some r =>
        some (.drilldown r (avg_net_profit_margin df)
          (r.NetProfitMargin - avg_net_profit_margin df))
    | none => none

/-- The bytes of an uploaded file, as seen by the cache key. -/
abbrev Bytes := List Nat

/-- The `@st.cache_data` memo table over `load_data` (app.py lines
13-15): finitely many input-keyed entries, written once. -/
abbrev Cache := List (Bytes × List Row)

/-- Cache lookup by input identity. -/
def Cache.find : Cache → Bytes → Option (List Row)
  | [], _ => none
  | (k, v) :: rest, b => if k = b then some v else Cache.find rest b

/-- `load_data` under `@st.cache_data` (app.py lines 13-15): answer a
repeated input from the memo table, otherwise parse
(`pd.read_excel`, here an abstract pure `parse` function) and record
the result.  Returns the table together with the updated cache. -/
def load_data (parse : Bytes → List Row) (c : Cache) (b : Bytes) :
    List Row × Cache :=
  match c.find b with
  | some t => (t, c)
  | none => (parse b, (b, parse b) :: c)

/-- The cache invariant: every memoized entry is what parsing its key
produces.  Holds for the empty cache and is preserved by `load_data`. -/
def CacheWF (parse : Bytes → List Row) (c : Cache) : Prop :=
  ∀ p ∈ c, p.2 = parse p.1

/-- A concrete row with the given identifier, `Revenue`,
`NetProfitMargin` and `TotalAssets`, all other numeric cells 0:
enough to exercise every aggregate of `app.py`. -/
def mkRow (uid : String) (rev npm assets : Rat) : Row :=
  ⟨uid, rev, 0, 0, 0, npm, 0, 0, assets, 0, 0, 0, 0, 0, 0, 0, 0, 0⟩

/-- The spec's worked example: rows `(A, Revenue=100)`,
`(B, Revenue=300)`, `(C, Revenue=200)`. -/
def exTable : List Row :=
  [mkRow "A" 100 0 0, mkRow "B" 300 0 0, mkRow "C" 200 0 0]

/-- A table with a duplicated identifier, for the duplicate-UserID
claims: two `"A"` rows with different margins, one `"B"` row. -/
def dupTable : List Row :=
  [mkRow "A" 100 10 5, mkRow "A" 200 20 7, mkRow "B" 300 30 9]

/-- `dupTable` with the second (duplicate) `"A"` row's margin changed:
identical first match, different whole-table mean. -/
def dupTable' : List Row :=
  [mkRow "A" 100 10 5, mkRow "A" 200 40 7, mkRow "B" 300 30 9]

/-- A table one of whose rows has the literal identifier `"Overview"`. -/
def overviewTable : List Row :=
  [mkRow "Overview" 100 10 5, mkRow "B" 300 30 9]

/-- A two-row table with a single (duplicated) identifier `"A"`. -/
def uniTable : List Row :=
  [mkRow "A" 100 10 5, mkRow "A" 200 20 7]

/-- A table sharing `dupTable`'s first `"A"` row and its whole-table
`NetProfitMargin` mean (both are 20), but otherwise different. -/
def dupTable2 : List Row :=
  [mkRow "A" 100 10 5, mkRow "C" 400 25 2, mkRow "D" 500 25 3]

/-! ### Helper lemmas -/

/-- Folding `+` over a column from any accumulator adds the column sum. -/
lemma foldl_add_eq (f : Row → Rat) :
    ∀ (df : List Row) (acc : Rat),
      df.foldl (fun a r => a + f r) acc = acc + (df.map f).sum
  | [], acc => by simp
  | r :: t, acc => by
    simp only [List.foldl_cons, List.map_cons, List.sum_cons]
    rw [foldl_add_eq f t, add_assoc]

/-- The sequential pandas reduction agrees with the mathematical sum. -/
lemma colSum_eq_sum (df : List Row) (f : Row → Rat) :
    colSum df f = (df.map f).sum := by
  rw [colSum, foldl_add_eq, zero_add]

/-- Stability of the descending sort underlying `nlargest`: for every key
value, the rows carrying that value come out exactly as they went in. -/
lemma sortDesc_filter_key (df : List Row) (f : Row → Rat) (v : Rat) :
    (df.insertionSort (byDesc f)).filter (fun r => decide (f r = v)) =
      df.filter (fun r => decide (f r = v)) := by
  have hpair : (df.filter (fun r => decide (f r = v))).Pairwise (byDesc f) := by
    apply List.pairwise_of_forall_mem_list
    intro a ha b hb
    have ha' := (List.mem_filter.mp ha).2
    have hb' := (List.mem_filter.mp hb).2
    have ha'' : f a = v := of_decide_eq_true ha'
    have hb'' : f b = v := of_decide_eq_true hb'
    show f b ≤ f a
    rw [ha'', hb'']
  have hsub : List.Sublist (df.filter (fun r => decide (f r = v)))
      (df.insertionSort (byDesc f)) :=
    List.sublist_insertionSort hpair (List.filter_sublist df)
  have hsub' : List.Sublist (df.filter (fun r => decide (f r = v)))
      ((df.insertionSort (byDesc f)).filter (fun r => decide (f r = v))) := by
    have := hsub.filter (fun r => decide (f r = v))
    rwa [List.filter_eq_self.mpr (fun a ha => (List.mem_filter.mp ha).2)] at this
  have hperm : List.Perm
      ((df.insertionSort (byDesc f)).filter (fun r => decide (f r = v)))
      (df.filter (fun r => decide (f r = v))) :=
    (List.perm_insertionSort (byDesc f) df).filter _
  exact (hsub'.eq_of_length hperm.length_eq.symm).symm

/-- `render` at the sentinel: the overview view of all six aggregates. -/
lemma render_overview (df : List Row) :
    render df "Overview" = some (.overview (total_revenue df)
      (avg_net_profit_margin df) (total_assets df) (total_users df)
      (top_10_users df) (top_20_assets df)) := by
  simp [render]

/-- `render` at a non-sentinel selection that finds a row. -/
lemma render_drilldown {df : List Row} {sel : String} {r : Row}
    (h : sel ≠ "Overview") (h2 : user_data df sel = some r) :
    render df sel = some (.drilldown r (avg_net_profit_margin df)
      (r.NetProfitMargin - avg_net_profit_margin df)) := by
  simp [render, h, h2]

/-- A row produced by `user_data` is a row of the table whose `UserID`
is the selected identifier. -/
lemma user_data_spec {df : List Row} {sel : String} {r : Row}
    (h : user_data df sel = some r) : r ∈ df ∧ r.UserID = sel := by
  rw [user_data] at h
  cases hmr : matching_rows df sel with
  | nil => rw [hmr] at h; cases h
  | cons a t =>
    rw [hmr] at h
    have ha : a = r := by simpa using h
    subst ha
    have hm : a ∈ matching_rows df sel := hmr ▸ List.mem_cons_self a t
    have := List.mem_filter.mp hm
    exact ⟨this.1, of_decide_eq_true this.2⟩

/-- Any selectbox option other than the sentinel is an existing
`UserID`, so the first-match lookup succeeds and returns a row carrying
that identifier. -/
lemma user_data_of_mem_user_list {df : List Row} {sel : String}
    (h1 : sel ∈ user_list df) (h2 : sel ≠ "Overview") :
    ∃ r, user_data df sel = some r ∧ r.UserID = sel ∧ r ∈ df := by
  have hmem : sel ∈ (df.map Row.UserID).dedup.insertionSort (· ≤ ·) := by
    rcases List.mem_cons.mp h1 with h | h
    · exact absurd h h2
    · exact h
  have hsel : sel ∈ df.map Row.UserID := by
    have := (List.mem_insertionSort (· ≤ ·)).mp hmem
    rwa [List.mem_dedup] at this
  obtain ⟨r0, hr0, huid0⟩ := List.mem_map.mp hsel
  have hrf : r0 ∈ matching_rows df sel :=
    List.mem_filter.mpr ⟨hr0, decide_eq_true huid0⟩
  cases hmr : matching_rows df sel with
  | nil => rw [hmr] at hrf; cases hrf
  | cons a t =>
    have ha : user_data df sel = some a := by rw [user_data, hmr]; rfl
    obtain ⟨hmem', huid'⟩ := user_data_spec ha
    exact ⟨a, ha, huid', hmem'⟩

/-- Cached entries of a well-formed cache hold exactly the parse of
their key. -/
lemma cacheWF_find_eq {parse : Bytes → List Row} :
    ∀ {c : Cache}, CacheWF parse c → ∀ {b : Bytes} {t : List Row},
      c.find b = some t → t = parse b
  | [], _, b, t, hf => by rw [Cache.find] at hf; cases hf
  | (k, v) :: rest, h, b, t, hf => by
    rw [Cache.find] at hf
    by_cases hk : k = b
    · rw [if_pos hk] at hf
      have hv : v = parse k := h (k, v) (List.mem_cons_self _ _)
      cases hf
      rw [hv, hk]
    · rw [if_neg hk] at hf
      exact cacheWF_find_eq (fun p hp => h p (List.mem_cons_of_mem _ hp)) hf

/-- `load_data` on a cache hit. -/
lemma load_data_of_find_some {parse : Bytes → List Row} {c : Cache}
    {b : Bytes} {t : List Row} (hf : c.find b = some t) :
    load_data parse c b = (t, c) := by
  rw [load_data, hf]

/-- `load_data` on a cache miss. -/
lemma load_data_of_find_none {parse : Bytes → List Row} {c : Cache}
    {b : Bytes} (hf : c.find b = none) :
    load_data parse c b = (parse b, (b, parse b) :: c) := by
  rw [load_data, hf]

/-- Both on a hit and on a miss, `load_data` over a well-formed cache
returns exactly what parsing the input produces. -/
lemma load_data_fst {parse : Bytes → List Row} {c : Cache} {b : Bytes}
    (h : CacheWF parse c) : (load_data parse c b).1 = parse b := by
  cases hf : c.find b with
  | some t => rw [load_data_of_find_some hf]; exact cacheWF_find_eq h hf
  | none => rw [load_data_of_find_none hf]

/-- `load_data` preserves the cache invariant. -/
lemma load_data_wf {parse : Bytes → List Row} {c : Cache} {b : Bytes}
    (h : CacheWF parse c) : CacheWF parse (load_data parse c b).2 := by
  cases hf : c.find b with
  | some t => rw [load_data_of_find_some hf]; exact h
  | none =>
    rw [load_data_of_find_none hf]
    intro p hp
    rcases List.mem_cons.mp hp with h1 | h1
    · rw [h1]
    · exact h p h1

/-- After a load, the input is memoized: the updated cache answers it. -/
lemma load_data_find_self {parse : Bytes → List Row} {c : Cache}
    {b : Bytes} (h : CacheWF parse c) :
    ((load_data parse c b).2).find b = some (parse b) := by
  cases hf : c.find b with
  | some t =>
    rw [load_data_of_find_some hf]
    show c.find b = some (parse b)
    rw [hf, cacheWF_find_eq h hf]
  | none =>
    rw [load_data_of_find_none hf]
    show Cache.find ((b, parse b) :: c) b = some (parse b)
    rw [Cache.find, if_pos rfl]

/-! ### Claim theorems -/

/-- C1: `nlargest` (as used for the top-10-by-Revenue and
top-20-by-TotalAssets views) returns exactly `min N rowcount` rows drawn
from the table, sorted in descending order of the chosen column, rows
with equal values keeping their original table order; on the worked
example `[(A,100), (B,300), (C,200)]`, the top 2 by Revenue are
`[B, C]` in that order. -/
theorem C1_top_n_selection :
    (∀ (df : List Row) (n : Nat) (f : Row → Rat),
        (nlargest df n f).length = min n df.length) ∧
    (∀ (df : List Row) (n : Nat) (f : Row → Rat),
        (nlargest df n f).Pairwise (fun a b => f b ≤ f a)) ∧
    (∀ (df : List Row) (n : Nat) (f : Row → Rat) (v : Rat),
        List.Sublist ((nlargest df n f).filter (fun r => decide (f r = v)))
          (df.filter (fun r => decide (f r = v)))) ∧
    (∀ (df : List Row) (n : Nat) (f : Row → Rat),
        List.Subperm (nlargest df n f) df) ∧
    nlargest exTable 2 Row.Revenue = [mkRow "B" 300 0 0, mkRow "C" 200 0 0] := by
  refine ⟨?_, ?_, ?_, ?_, ?_⟩
  · intro df n f
    rw [nlargest, List.length_take, List.length_insertionSort]
  · intro df n f
    exact (List.sorted_insertionSort (byDesc f) df).sublist
      (List.take_sublist n _)
  · intro df n f v
    have h := (List.take_sublist n
        (df.insertionSort (byDesc f))).filter (fun r => decide (f r = v))
    rwa [sortDesc_filter_key] at h
  · intro df n f
    exact ((List.take_sublist n _).subperm).trans
      (List.perm_insertionSort (byDesc f) df).subperm
  · norm_num [nlargest, exTable, List.insertionSort, List.orderedInsert,
      byDesc, mkRow]

/-- C3: the Total Revenue metric is the sum of the `Revenue` column over
all rows (exact, in the rational embedding); on the worked example with
revenues 100, 300, 200 it is 600. -/
theorem C3_total_revenue :
    (∀ df : List Row, df ≠ [] → total_revenue df = (df.map Row.Revenue).sum) ∧
    total_revenue exTable = 600 := by
  constructor
  · intro df _
    exact colSum_eq_sum df Row.Revenue
  · norm_num [total_revenue, colSum, exTable, mkRow]

/-- Witness for C3 at the worked example table. -/
theorem C3_total_revenue_witness :
    total_revenue exTable = (exTable.map Row.Revenue).sum :=
  C3_total_revenue.1 exTable (by decide)

/-- C7: the Total Users metric counts distinct `UserID` values, each
duplicate identifier counted once: `dupTable` has three rows but two
distinct identifiers. -/
theorem C7_total_users :
    (∀ df : List Row, total_users df = (df.map Row.UserID).toFinset.card) ∧
    total_users dupTable = 2 := by
  constructor
  · intro df
    rw [total_users, List.card_toFinset]
  · decide

/-- C2: selecting the sentinel `"Overview"` renders the whole-table
aggregate view (sums, mean, distinct count, top-N chart inputs), never a
single row; selecting any other option offered by the selector renders a
drill-down built from a row whose `UserID` equals the selection. -/
theorem C2_view_selection (df : List Row) (sel : String) :
    render df "Overview" = some (.overview (total_revenue df)
      (avg_net_profit_margin df) (total_assets df) (total_users df)
      (top_10_users df) (top_20_assets df)) ∧
    (sel ∈ user_list df → sel ≠ "Overview" →
      ∃ r, user_data df sel = some r ∧ r.UserID = sel ∧
        render df sel = some (.drilldown r (avg_net_profit_margin df)
          (r.NetProfitMargin - avg_net_profit_margin df))) := by
  refine ⟨render_overview df, fun h1 h2 => ?_⟩
  obtain ⟨r, hr, huid, -⟩ := user_data_of_mem_user_list h1 h2
  exact ⟨r, hr, huid, render_drilldown h2 hr⟩

/-- Witness for C2: selecting `"A"` on `uniTable` drills into an
`"A"` row. -/
theorem C2_view_selection_witness :
    ∃ r, user_data uniTable "A" = some r ∧ r.UserID = "A" ∧
      render uniTable "A" = some (.drilldown r (avg_net_profit_margin uniTable)
        (r.NetProfitMargin - avg_net_profit_margin uniTable)) :=
  (C2_view_selection uniTable "A").2 (by decide) (by decide)

/-- C5: the NotFound branch is unreachable: every selector option other
than the sentinel comes from an existing `UserID`, so the first-match
lookup (`.iloc[0]`) always finds a row and the page renders. -/
theorem C5_notfound_unreachable (df : List Row) (sel : String)
    (h1 : sel ∈ user_list df) (h2 : sel ≠ "Overview") :
    matching_rows df sel ≠ [] ∧ (user_data df sel).isSome ∧
      (render df sel).isSome := by
  obtain ⟨r, hr, -, -⟩ := user_data_of_mem_user_list h1 h2
  refine ⟨?_, by rw [hr]; rfl, by rw [render_drilldown h2 hr]; rfl⟩
  intro hnil
  rw [user_data, hnil] at hr
  cases hr

/-- Witness for C5 at `uniTable` with selection `"A"`. -/
theorem C5_notfound_unreachable_witness :
    matching_rows uniTable "A" ≠ [] ∧ (user_data uniTable "A").isSome ∧
      (render uniTable "A").isSome :=
  C5_notfound_unreachable uniTable "A" (by decide) (by decide)

/-- C8: the selector options are the sentinel `"Overview"` first, then
the table's distinct `UserID` values in strictly ascending order, each
appearing exactly once however many rows carry it. -/
theorem C8_user_list (df : List Row) :
    (user_list df).head? = some "Overview" ∧
    (user_list df).tail.Sorted (· < ·) ∧
    (∀ u, u ∈ (user_list df).tail ↔ u ∈ df.map Row.UserID) ∧
    (∀ u ∈ df.map Row.UserID, (user_list df).tail.count u = 1) := by
  have htail : (user_list df).tail =
      (df.map Row.UserID).dedup.insertionSort (· ≤ ·) := rfl
  have hnd : ((df.map Row.UserID).dedup.insertionSort (· ≤ ·)).Nodup :=
    (List.perm_insertionSort (· ≤ ·) _).nodup_iff.mpr (List.nodup_dedup _)
  have hle : ((df.map Row.UserID).dedup.insertionSort (· ≤ ·)).Sorted (· ≤ ·) :=
    List.sorted_insertionSort (· ≤ ·) _
  refine ⟨rfl, ?_, ?_, ?_⟩
  · rw [htail]
    exact hle.lt_of_le hnd
  · intro u
    rw [htail, List.mem_insertionSort, List.mem_dedup]
  · intro u hu
    rw [htail]
    exact List.count_eq_one_of_mem hnd
      (by rw [List.mem_insertionSort, List.mem_dedup]; exact hu)

/-- Witness for C8: on `uniTable`, whose two rows both carry `"A"`,
the option `"A"` is listed exactly once. -/
theorem C8_user_list_witness :
    (user_list uniTable).tail.count "A" = 1 :=
  (C8_user_list uniTable).2.2.2 "A" (by decide)

/-- C9: a row whose `UserID` is the literal string `"Overview"` has no
reachable drill-down: the sentinel check precedes the identifier lookup,
so selecting `"Overview"` always renders the aggregate view and never a
drill-down. -/
theorem C9_overview_shadowing (df : List Row) (r : Row) (hr : r ∈ df)
    (huid : r.UserID = "Overview") :
    render df "Overview" = some (.overview (total_revenue df)
      (avg_net_profit_margin df) (total_assets df) (total_users df)
      (top_10_users df) (top_20_assets df)) ∧
    ∀ (row : Row) (a d : Rat),
      render df "Overview" ≠ some (.drilldown row a d) := by
  refine ⟨render_overview df, fun row a d h => ?_⟩
  rw [render_overview df] at h
  exact View.noConfusion (Option.some.inj h)

/-- Witness for C9 at `overviewTable`, whose first row is named
`"Overview"`. -/
theorem C9_overview_shadowing_witness :
    render overviewTable "Overview" ≠
      some (.drilldown (mkRow "Overview" 100 10 5) 20 (-10)) :=
  (C9_overview_shadowing overviewTable (mkRow "Overview" 100 10 5)
    (by decide) rfl).2 (mkRow "Overview" 100 10 5) 20 (-10)

/-- C10: in every drill-down, the delta beside the Company Average Net
Profit Margin equals the selected row's `NetProfitMargin` minus the mean
of `NetProfitMargin` over all rows — a mean that includes the selected
row itself (the row is a member of the table it is averaged over). -/
theorem C10_delta_vs_avg (df : List Row) (sel : String) (row : Row)
    (a d : Rat) (h : render df sel = some (.drilldown row a d)) :
    a = avg_net_profit_margin df ∧
    d = row.NetProfitMargin - avg_net_profit_margin df ∧
    avg_net_profit_margin df =
      (df.map Row.NetProfitMargin).sum / (df.length : Rat) ∧
    row ∈ df := by
  rw [render] at h
  by_cases hsel : sel = "Overview"
  · rw [if_pos hsel] at h
    exact View.noConfusion (Option.some.inj h)
  · rw [if_neg hsel] at h
    cases hud : user_data df sel with
    | none => rw [hud] at h; cases h
    | some r =>
      rw [hud] at h
      have hinj := Option.some.inj h
      rw [View.drilldown.injEq] at hinj
      obtain ⟨hr, ha, hd⟩ := hinj
      refine ⟨ha.symm, ?_, ?_, ?_⟩
      · rw [← hd, hr]
      · rw [avg_net_profit_margin, colMean, colSum_eq_sum]
      · rw [← hr]
        exact (user_data_spec hud).1

/-- Witness for C10: the drill-down for `"A"` on `uniTable`, where the
mean margin is 15 and the shown delta is `10 - 15 = -5`. -/
theorem C10_delta_vs_avg_witness :
    (15 : Rat) = avg_net_profit_margin uniTable ∧
    (-5 : Rat) = (mkRow "A" 100 10 5).NetProfitMargin -
      avg_net_profit_margin uniTable ∧
    avg_net_profit_margin uniTable =
      (uniTable.map Row.NetProfitMargin).sum / (uniTable.length : Rat) ∧
    mkRow "A" 100 10 5 ∈ uniTable :=
  C10_delta_vs_avg uniTable "A" (mkRow "A" 100 10 5) 15 (-5)
    (by
      rw [render_drilldown (by decide)
        (by decide : user_data uniTable "A" = some (mkRow "A" 100 10 5))]
      norm_num [avg_net_profit_margin, colMean, colSum, uniTable, mkRow])

/-- Counterexample to C4 as stated: `dupTable` and `dupTable'` share
the same first `"A"` row and differ only in the second, duplicate,
`"A"` row, yet the rendered drill-down differs (through the
company-average margin), so the remaining matching rows do affect the
rendered output. -/
theorem C4_counterexample :
    user_data dupTable "A" = user_data dupTable' "A" ∧
    dupTable.head? = dupTable'.head? ∧
    render dupTable "A" ≠ render dupTable' "A" := by
  refine ⟨by decide, by decide, ?_⟩
  have h1 : user_data dupTable "A" = some (mkRow "A" 100 10 5) := by decide
  have h2 : user_data dupTable' "A" = some (mkRow "A" 100 10 5) := by decide
  rw [render_drilldown (by decide) h1, render_drilldown (by decide) h2]
  have hne : avg_net_profit_margin dupTable ≠ avg_net_profit_margin dupTable' := by
    norm_num [avg_net_profit_margin, colMean, colSum, dupTable, dupTable', mkRow]
  simp only [ne_eq, Option.some.injEq, View.drilldown.injEq]
  exact fun h => hne h.2.1

/-- C4 (amended): the drill-down is built from the first matching row in
original table order; the remaining matching rows never change which row
is shown, and they influence the rendered output only through the
whole-table `NetProfitMargin` mean — two tables with the same first
match and the same mean render identically. -/
theorem C4_first_match_amended (df df' : List Row) (sel : String) (r : Row)
    (h2 : sel ≠ "Overview")
    (hd : user_data df sel = some r) (hd' : user_data df' sel = some r)
    (hm : avg_net_profit_margin df = avg_net_profit_margin df') :
    render df sel = some (.drilldown r (avg_net_profit_margin df)
      (r.NetProfitMargin - avg_net_profit_margin df)) ∧
    render df sel = render df' sel := by
  refine ⟨render_drilldown h2 hd, ?_⟩
  rw [render_drilldown h2 hd, render_drilldown h2 hd', hm]

/-- Witness for the amended C4: `dupTable` and `dupTable2` differ in
every row but the first, yet share its first `"A"` row and the mean
margin 20, so selecting `"A"` renders identically on both. -/
theorem C4_first_match_amended_witness :
    render dupTable "A" = some (.drilldown (mkRow "A" 100 10 5)
      (avg_net_profit_margin dupTable)
      ((mkRow "A" 100 10 5).NetProfitMargin - avg_net_profit_margin dupTable)) ∧
    render dupTable "A" = render dupTable2 "A" :=
  C4_first_match_amended dupTable dupTable2 "A" (mkRow "A" 100 10 5)
    (by decide) (by decide) (by decide)
    (by norm_num [avg_net_profit_margin, colMean, colSum, dupTable, dupTable2,
      mkRow])

/-- C6: the loader-plus-aggregator pipeline is deterministic: over any
well-formed cache, a load returns exactly the parse of its input, keeps
the cache well-formed and memoizes the input, and an immediately
repeated load (now answered by the cache) returns the same table and
hence identical values for every aggregate. -/
theorem C6_load_determinism (parse : Bytes → List Row) (c : Cache)
    (b : Bytes) (h : CacheWF parse c) :
    (load_data parse c b).1 = parse b ∧
    CacheWF parse (load_data parse c b).2 ∧
    ((load_data parse c b).2).find b = some (parse b) ∧
    (load_data parse (load_data parse c b).2 b).2 = (load_data parse c b).2 ∧
    (load_data parse (load_data parse c b).2 b).1 = (load_data parse c b).1 ∧
    (∀ f, colSum (load_data parse (load_data parse c b).2 b).1 f =
      colSum (load_data parse c b).1 f) ∧
    (∀ f, colMean (load_data parse (load_data parse c b).2 b).1 f =
      colMean (load_data parse c b).1 f) ∧
    total_users (load_data parse (load_data parse c b).2 b).1 =
      total_users (load_data parse c b).1 ∧
    (∀ n f, nlargest (load_data parse (load_data parse c b).2 b).1 n f =
      nlargest (load_data parse c b).1 n f) := by
  have h1 : (load_data parse c b).1 = parse b := load_data_fst h
  have hwf : CacheWF parse (load_data parse c b).2 := load_data_wf h
  have hfind : ((load_data parse c b).2).find b = some (parse b) :=
    load_data_find_self h
  have h2 : load_data parse (load_data parse c b).2 b =
      (parse b, (load_data parse c b).2) := load_data_of_find_some hfind
  have h2fst : (load_data parse (load_data parse c b).2 b).1 =
      (load_data parse c b).1 := by rw [h2, h1]
  refine ⟨h1, hwf, hfind, by rw [h2], h2fst, ?_, ?_, ?_, ?_⟩
  · intro f; rw [h2fst]
  · intro f; rw [h2fst]
  · rw [h2fst]
  · intro n f; rw [h2fst]

/-- Witness for C6 with an abstract parse of everything to `exTable`,
starting from the empty cache. -/
theorem C6_load_determinism_witness :
    (load_data (fun _ => exTable) [] []).1 = exTable ∧
    (load_data (fun _ => exTable) ([] : Cache) ([] : Bytes)).2.find [] =
      some exTable :=
  have h := C6_load_determinism (fun _ => exTable) [] []
    (fun p hp => absurd hp (List.not_mem_nil p))
  ⟨h.1, h.2.2.1⟩

end FinanceDashboard
